import Mathlib

attribute [local semireducible] Rat.add Rat.mul Rat.sub Rat.inv Rat.ofScientific

/-!
Shallow embedding of `agent_core.py` from the AI-Based Crop Recommendation
System (agentic) repository, together with proofs settling the frozen claims
about its specification.

Modelling conventions:
* Python values flowing through the agent's memory are modelled by `Value`
  (strings, numbers, `None`, lists, dicts).  Python floats are modelled by
  `ℚ`; every numeric literal appearing in the source (6.5, 0.15, 0.35, …) is
  taken at its decimal value.
* `Agent.memory` (a Python dict) is an insertion-ordered association list
  with unique keys; `memSet` overwrites in place like a dict assignment.
* Python exceptions are modelled with `Except PyErr`; a `try/except` block
  is a `match` on the embedded result of its body.
* Network calls (`requests.*`) and the environment variable holding the API
  key are abstracted into a `Gateway` record of response values; `time`-based
  strings are a `Gateway` field as well.  Log strings (which embed wall-clock
  timestamps) are not modelled; instead the claim-relevant observable actions
  of `provide_followup_answers` are recorded as structured `Event`s.
-/

namespace AgentCore

/-- A Python runtime value as it occurs in the agent's memory and payloads. -/
inductive Value where
  | str (s : String)
  | num (q : ℚ)
  | none
  | list (vs : List Value)
  | dict (kvs : List (String × Value))
deriving Repr

/-- Python truthiness (`if x:`) for the shapes of `Value`. -/
def isTruthy : Value → Bool
  | .str s => !(s = "")
  | .num q => !(q = 0)
  | .none => false
  | .list vs => !vs.isEmpty
  | .dict kvs => !kvs.isEmpty

/-- Does the first character list start with the second? -/
def startsWithChars : List Char → List Char → Bool
  | _, [] => true
  | [], _ :: _ => false
  | a :: as, b :: bs => a = b && startsWithChars as bs

/-- Does the first character list contain the second as a contiguous run? -/
def charsContain : List Char → List Char → Bool
  | s, p =>
    match s with
    | [] => p.isEmpty
    | _ :: rest => startsWithChars s p || charsContain rest p

/-- Python `sub in hay` on strings: substring containment. -/
def strContains (hay sub : String) : Bool :=
  charsContain hay.toList sub.toList

/-- ASCII lowercase of one character (Python `str.lower()`; the program
only lowercases ASCII text — all other characters pass through). -/
def asciiLower (c : Char) : Char :=
  match c with
  | 'A' => 'a' | 'B' => 'b' | 'C' => 'c' | 'D' => 'd' | 'E' => 'e'
  | 'F' => 'f' | 'G' => 'g' | 'H' => 'h' | 'I' => 'i' | 'J' => 'j'
  | 'K' => 'k' | 'L' => 'l' | 'M' => 'm' | 'N' => 'n' | 'O' => 'o'
  | 'P' => 'p' | 'Q' => 'q' | 'R' => 'r' | 'S' => 's' | 'T' => 't'
  | 'U' => 'u' | 'V' => 'v' | 'W' => 'w' | 'X' => 'x' | 'Y' => 'y'
  | 'Z' => 'z'
  | c => c

/-- Python `str.lower()`. -/
def pyLower (s : String) : String := String.mk (s.toList.map asciiLower)

/-- Python's whitespace set for `strip`/`split` (ASCII part). -/
def isSpaceChar (c : Char) : Bool :=
  c = ' ' || c = '\t' || c = '\n' || c = '\x0d' || c = '\x0b' || c = '\x0c'

/-- Python `str.strip()` on character lists. -/
def trimChars (cs : List Char) : List Char :=
  ((cs.dropWhile isSpaceChar).reverse.dropWhile isSpaceChar).reverse

/-- Python `str.strip()`. -/
def pyTrim (s : String) : String := String.mk (trimChars s.toList)

/-- Splitter for Python `str.split()` with no argument: words between
whitespace runs, empty pieces dropped. -/
def splitWsAux : List Char → List Char → List (List Char)
  | [], acc => if acc.isEmpty then [] else [acc.reverse]
  | c :: rest, acc =>
      if isSpaceChar c then
        if acc.isEmpty then splitWsAux rest []
        else acc.reverse :: splitWsAux rest []
      else splitWsAux rest (c :: acc)

/-- Python `str.split()` with no argument. -/
def pySplit (s : String) : List String :=
  (splitWsAux s.toList []).map String.mk

/-- Python `s.split(sep)` for a one-character separator (the source only
splits on `","`). -/
def splitCharAux (sep : Char) : List Char → List (List Char)
  | [] => [[]]
  | c :: rest =>
      let groups := splitCharAux sep rest
      if c = sep then [] :: groups
      else
        match groups with
        | g :: gs => (c :: g) :: gs
        | [] => [[c]]

/-- Python `s.split(",")`. -/
def splitComma (s : String) : List String :=
  (splitCharAux ',' s.toList).map String.mk

/-- Python `s.replace(old, new)` for a one-character `old` (every
replacement in the source has a one-character pattern). -/
def replaceChar (s : String) (pat : Char) (rep : String) : String :=
  String.mk (s.toList.foldr (fun c acc => if c = pat then rep.toList ++ acc else c :: acc) [])

/-- Python `" ".join(words)`. -/
def joinSpace : List String → String
  | [] => ""
  | [w] => w
  | w :: ws => w ++ " " ++ joinSpace ws

/-- Digits of a numeral to a natural number (`foldl` over base 10). -/
def digitsToNat (cs : List Char) : Nat :=
  cs.foldl (fun acc c => 10 * acc + (c.toNat - '0'.toNat)) 0

/-- Decimal part of Python `float(s)` parsing: `digits`, `digits.`,
`digits.digits` or `.digits`, with an optional exponent part.
(`inf`/`nan` forms and underscore separators are not modelled; no input
exercised by the program or the claims uses them.) -/
def parseDecimal (cs : List Char) : Option ℚ :=
  let intPart := cs.takeWhile Char.isDigit
  let rest := cs.dropWhile Char.isDigit
  let afterPoint : Option (ℚ × List Char) :=
    match rest with
    | [] => if intPart = [] then Option.none else some ((digitsToNat intPart : ℚ), [])
    | '.' :: rest2 =>
        let fracPart := rest2.takeWhile Char.isDigit
        let rest3 := rest2.dropWhile Char.isDigit
        if intPart = [] ∧ fracPart = [] then Option.none
        else some ((digitsToNat intPart : ℚ) + (digitsToNat fracPart : ℚ) / (10 ^ fracPart.length : ℚ), rest3)
    | _ => if intPart = [] then Option.none else some ((digitsToNat intPart : ℚ), rest)
  match afterPoint with
  | Option.none => Option.none
  | some (q, []) => some q
  | some (q, e :: rest4) =>
      if e = 'e' ∨ e = 'E' then
        let (sgn, ds) : ℚ × List Char :=
          match rest4 with
          | '+' :: ds => (1, ds)
          | '-' :: ds => (-1, ds)
          | ds => (1, ds)
        if ds ≠ [] ∧ ds.all Char.isDigit then
          if sgn = 1 then some (q * (10 ^ digitsToNat ds : ℚ))
          else some (q / (10 ^ digitsToNat ds : ℚ))
        else Option.none
      else Option.none

/-- Python `float(s)` on a string: strip whitespace, optional sign, decimal
numeral. Returns `none` where Python raises `ValueError`. -/
def pyFloatOfString (s : String) : Option ℚ :=
  match (pyTrim s).toList with
  | '+' :: rest => parseDecimal rest
  | '-' :: rest => (parseDecimal rest).map Neg.neg
  | cs => parseDecimal cs

/-- Python `int(s)` on a string: strip whitespace, optional sign, digits
only. Returns `none` where Python raises `ValueError`. -/
def pyIntOfString (s : String) : Option ℤ :=
  let core (cs : List Char) : Option ℤ :=
    if cs ≠ [] ∧ cs.all Char.isDigit then some (digitsToNat cs : ℤ) else Option.none
  match (pyTrim s).toList with
  | '+' :: rest => core rest
  | '-' :: rest => (core rest).map Neg.neg
  | cs => core cs

/-- A Python exception escaping an operation. -/
inductive PyErr where
  | valueError (msg : String)
  | typeError (msg : String)
  | indexError
deriving Repr, DecidableEq

/-- Python `float(x)` on a runtime value; `.error` where Python raises. -/
def pyFloatE : Value → Except PyErr ℚ
  | .num q => .ok q
  | .str s =>
      match pyFloatOfString s with
      | some q => .ok q
      | Option.none => .error (.valueError s)
  | .none => .error (.typeError "float() argument must not be None")
  | .list _ => .error (.typeError "float() argument must not be a list")
  | .dict _ => .error (.typeError "float() argument must not be a dict")

/-- Python `float(x)` where only success matters (used under `try/except`). -/
def pyFloat (v : Value) : Option ℚ := (pyFloatE v).toOption

/-- Python `str(x)`.  Strings pass through; numbers use the rational
rendering (Python's float repr differs textually, but no branch of the
program or claim depends on the exact spelling of a rendered number, list
or dict — rendered text only flows into substring tests against alphabetic
words and into display strings). -/
def pyStr : Value → String
  | .str s => s
  | .num q => toString q
  | .none => "None"
  | .list _ => "<list>"
  | .dict _ => "<dict>"

/-! ### Memory: the agent's dict, as an insertion-ordered association list -/

/-- The agent's `self.memory` dict. -/
abbrev Mem := List (String × Value)

/-- Python `memory.get(k)` / `memory[k]` lookup (first binding wins). -/
def memFind? : Mem → String → Option Value
  | [], _ => Option.none
  | (k', v') :: rest, k => if k' = k then some v' else memFind? rest k

/-- Python `memory[k] = v`: overwrite in place, else append (dict insertion
order). -/
def memSet : Mem → String → Value → Mem
  | [], k, v => [(k, v)]
  | (k', v') :: rest, k, v =>
      if k' = k then (k, v) :: rest else (k', v') :: memSet rest k v

/-- Python `k in memory`. -/
def memContains (m : Mem) (k : String) : Bool := (memFind? m k).isSome

/-- Python `memory.get(k, d)`. -/
def memGetD (m : Mem) (k : String) (d : Value) : Value := (memFind? m k).getD d

/-- Lookup in a dict value's key/value list (Python `d.get(k)` semantics,
`None` when absent). -/
def dictFind? : List (String × Value) → String → Option Value
  | [], _ => Option.none
  | (k', v') :: rest, k => if k' = k then some v' else dictFind? rest k

/-- Python `d[k] = v` on a dict value. -/
def dictSet : List (String × Value) → String → Value → List (String × Value)
  | [], k, v => [(k, v)]
  | (k', v') :: rest, k, v =>
      if k' = k then (k, v) :: rest else (k', v') :: dictSet rest k v

/-! ### Field ↔ question registry (`field_to_question` / `question_to_field`) -/

/-- `Agent._normalize`: `" ".join(str(text).strip().lower().split())`. -/
def normalizeText (text : String) : String :=
  joinSpace (pySplit (pyLower (pyTrim text)))

/-- `Agent.field_to_question` (the argument is always a string here, so the
`isinstance` branch for non-strings is the identity embedding). -/
def field_to_question (field_name : String) : String :=
  if field_name = "area acres" then "Area in acres (e.g., 2)"
  else if field_name = "soil type" then "Soil type (e.g., clay, sandy, loam, silty, peaty, chalky)"
  else if field_name = "ph" then "Soil pH (e.g., 6.5)"
  else if field_name = "moisture" then "Moisture level (low / medium / high)"
  else if field_name = "location" then "Location (lat, lon) — comma separated (e.g., 12.9716,77.5946)"
  else "Please provide " ++ field_name

/-- `Agent.question_to_field`: exact match against normalized templates in
insertion order, then the substring heuristics, else `none`. -/
def question_to_field (question_text : String) : Option String :=
  let q := normalizeText question_text
  if q = normalizeText "Area in acres (e.g., 2)" then some "area_acres"
  else if q = normalizeText "Soil type (e.g., clay, sandy, loam, silty, peaty, chalky)" then some "soil_type"
  else if q = normalizeText "Soil pH (e.g., 6.5)" then some "ph"
  else if q = normalizeText "Moisture level (low / medium / high)" then some "moisture"
  else if q = normalizeText "Location (lat, lon) — comma separated (e.g., 12.9716,77.5946)" then some "location"
  else if strContains q "area" then some "area_acres"
  else if strContains q "soil" && strContains q "type" then some "soil_type"
  else if strContains q "ph" || strContains question_text "pH" then some "ph"
  else if strContains q "moisture" then some "moisture"
  else if strContains q "location" || (strContains q "lat" && strContains q "lon") then some "location"
  else Option.none

/-- `Agent._safe_key_from_question`: normalize, then the replacement chain
`" "→"_"`, `"("→""`, `")"→""`, `"/"→"_"`, `","→""`. -/
def safe_key_from_question (question_text : String) : String :=
  replaceChar (replaceChar (replaceChar (replaceChar (replaceChar
    (normalizeText question_text) ' ' "_") '(' "") ')' "") '/' "_") ',' ""

/-! ### Planner and missing-field resolver -/

/-- One entry of the plan list: `{"name": ..., "requires": [...]}`. -/
structure Step where
  name : String
  requires : List String
deriving Repr, DecidableEq

/-- `Agent.simple_planner`. -/
def simple_planner (text : String) : List Step :=
  let txt := pyLower text
  let required :=
    (if strContains txt "acre" || strContains txt "area" then ["area_acres"] else []) ++
    ["soil_type", "ph", "moisture", "location"]
  [ { name := "collect_info", requires := required },
    { name := "call_crop_tool", requires := ["soil_type", "ph", "area_acres", "moisture"] },
    { name := "build_plan", requires := ["crop_recommendation"] } ]

/-- Python `field.replace("_", " ")`. -/
def spaceify (field : String) : String := replaceChar field '_' " "

/-- First loop of `identify_missing_fields`: every required field absent
from memory, in step order, with `"_"` replaced by `" "`. -/
def missingScan (plan : List Step) (mem : Mem) : List String :=
  plan.foldr (fun st acc =>
    ((st.requires.filter (fun f => !memContains mem f)).map spaceify) ++ acc) []

/-- Second loop of `identify_missing_fields`: convert to questions while
deduplicating on the field text via the `seen` set. -/
def dedupQuestions : List String → List String → List String
  | [], _ => []
  | m :: rest, seen =>
      if seen.contains m then dedupQuestions rest seen
      else field_to_question m :: dedupQuestions rest (m :: seen)

/-- `Agent.identify_missing_fields`. -/
def identify_missing_fields (plan : List Step) (mem : Mem) : List String :=
  dedupQuestions (missingScan plan mem) []

/-! ### Answer normalization (`_parse_answer_for_field`) -/

/-- The generic fallback block of `_parse_answer_for_field`:
`s = str(answer).strip(); float(s) if "." in s else int(s)`, falling back
to the stripped string when the conversion raises. -/
def genericAnswer (answer : Value) : Value :=
  let s := pyTrim (pyStr answer)
  if strContains s "." then
    match pyFloatOfString s with
    | some q => .num q
    | Option.none => .str s
  else
    match pyIntOfString s with
    | some n => .num (n : ℚ)
    | Option.none => .str s

/-- `Agent._parse_answer_for_field`. -/
def parse_answer_for_field (field : String) (answer : Value) : Value :=
  match answer with
  | .none => .none
  | _ =>
    if field = "area_acres" || field = "ph" then
      match pyFloat answer with
      | some q => .num q
      | Option.none => genericAnswer answer
    else if field = "moisture" || field = "soil_type" then
      .str (pyLower (pyTrim (pyStr answer)))
    else if field = "location" then
      .str (pyTrim (pyStr answer))
    else genericAnswer answer

/-! ### Decision engine (`crop_recommendation_tool`) and plan builder -/

/-- The resolved inputs handed to the decision engine by `execute_plan`. -/
structure Inputs where
  area_acres : ℚ
  soil_type : String
  ph : ℚ
  moisture : String
deriving Repr, DecidableEq

/-- The decision engine's result record. -/
structure CropRec where
  crop : String
  reason : String
  confidence : String
  estimated_costs : List (String × ℚ)
deriving Repr, DecidableEq

/-- Python `round(x, 2)` (round half to even at two decimal places; the
source only ever rounds products of integer rates with the area). -/
def round2 (x : ℚ) : ℚ :=
  let y := x * 100
  let n := ⌊y⌋
  let frac := y - (n : ℚ)
  let r : ℤ :=
    if frac > 1 / 2 then n + 1
    else if frac < 1 / 2 then n
    else if n % 2 = 0 then n else n + 1
  (r : ℚ) / 100

/-- The soil-alias matching loop of `crop_recommendation_tool`: first
matching canonical key in dict insertion order, else `"unknown"`. -/
def soilKeyOf (soil_raw : String) : String :=
  if strContains soil_raw "clay" then "clay"
  else if strContains soil_raw "loam" then "loam"
  else if strContains soil_raw "sand" || strContains soil_raw "sandy" then "sandy"
  else if strContains soil_raw "silt" || strContains soil_raw "silty" then "silty"
  else if strContains soil_raw "peat" || strContains soil_raw "peaty" then "peaty"
  else if strContains soil_raw "chalk" || strContains soil_raw "chalky" then "chalky"
  else "unknown"

/-- `Agent.crop_recommendation_tool`: the deterministic rule table. -/
def crop_recommendation_tool (inputs : Inputs) : CropRec :=
  let soil_raw := pyLower inputs.soil_type
  let ph := inputs.ph
  let moisture := pyLower (if inputs.moisture = "" then "medium" else inputs.moisture)
  let area := inputs.area_acres
  let soil_key := soilKeyOf soil_raw
  if soil_key = "clay" ∨ soil_key = "loam" then
    if 11/2 ≤ ph ∧ ph ≤ 15/2 ∧ (moisture = "medium" ∨ moisture = "high") then
      { crop := "Maize"
        reason := "Loamy/clay soil with near-neutral pH and sufficient moisture suits maize."
        confidence := "high"
        estimated_costs := [("seeds", round2 (1000 * area)), ("fertilizers", round2 (800 * area))] }
    else if moisture = "low" then
      { crop := "Pulses (e.g., Pigeon pea)"
        reason := "Drier conditions favor drought-tolerant pulses."
        confidence := "medium"
        estimated_costs := [("seeds", round2 (700 * area)), ("fertilizers", round2 (400 * area))] }
    else
      { crop := "Maize"
        reason := "General good fit for loamy/clay soils."
        confidence := "medium"
        estimated_costs := [("seeds", round2 (1000 * area))] }
  else if soil_key = "sandy" then
    if moisture = "low" ∧ 11/2 ≤ ph ∧ ph ≤ 7 then
      { crop := "Millet"
        reason := "Sandy + low moisture favors millet."
        confidence := "high"
        estimated_costs := [("seeds", round2 (600 * area)), ("fertilizers", round2 (400 * area))] }
    else if (moisture = "medium" ∨ moisture = "high") ∧ 11/2 ≤ ph ∧ ph ≤ 15/2 then
      { crop := "Groundnut"
        reason := "Groundnut performs well in sandy soils with moderate moisture."
        confidence := "medium"
        estimated_costs := [("seeds", round2 (700 * area)), ("fertilizers", round2 (500 * area))] }
    else
      { crop := "Millet"
        reason := "Conservative choice for sandy when uncertain."
        confidence := "medium"
        estimated_costs := [("seeds", round2 (650 * area))] }
  else if soil_key = "silty" then
    if 6 ≤ ph ∧ ph ≤ 15/2 ∧ (moisture = "medium" ∨ moisture = "high") then
      { crop := "Wheat"
        reason := "Silty + moist + near-neutral pH suits wheat."
        confidence := "high"
        estimated_costs := [("seeds", round2 (1200 * area)), ("fertilizers", round2 (900 * area))] }
    else
      { crop := "Barley"
        reason := "Barley tolerates variable silty conditions."
        confidence := "medium"
        estimated_costs := [("seeds", round2 (1100 * area)), ("fertilizers", round2 (850 * area))] }
  else if soil_key = "peaty" then
    if moisture = "high" then
      { crop := "Rice"
        reason := "Peaty soils retain water — rice is well suited."
        confidence := "high"
        estimated_costs := [("seeds", round2 (1300 * area)), ("fertilizers", round2 (1000 * area))] }
    else
      { crop := "Maize"
        reason := "Peaty but drier -> maize possible."
        confidence := "medium"
        estimated_costs := [("seeds", round2 (1000 * area))] }
  else if soil_key = "chalky" then
    if ph > 7 ∧ (moisture = "medium" ∨ moisture = "high") then
      { crop := "Sugarcane"
        reason := "Alkaline chalky soils with moisture suit sugarcane."
        confidence := "medium"
        estimated_costs := [("seeds", round2 (1400 * area)), ("fertilizers", round2 (1100 * area))] }
    else
      { crop := "Wheat"
        reason := "Wheat tolerates chalky conditions."
        confidence := "low"
        estimated_costs := [("seeds", round2 (1200 * area)), ("fertilizers", round2 (900 * area))] }
  else
    if moisture = "low" then
      { crop := "Millet"
        reason := "Default drought-tolerant choice when soil unknown."
        confidence := "medium"
        estimated_costs := [("seeds", round2 (700 * area))] }
    else if (moisture = "medium" ∨ moisture = "high") ∧ 6 ≤ ph ∧ ph ≤ 15/2 then
      { crop := "Maize"
        reason := "General-purpose choice for neutral pH and adequate moisture."
        confidence := "medium"
        estimated_costs := [("seeds", round2 (1000 * area))] }
    else
      { crop := "Maize"
        reason := "Fallback recommendation."
        confidence := "low"
        estimated_costs := [("seeds", round2 (1000 * area))] }

/-- One task of the action plan built by `build_action_plan`. -/
structure PlanTask where
  task : String
  weeks : Nat
  notes : String
deriving Repr, DecidableEq

/-- `Agent.build_action_plan`. -/
def build_action_plan (inputs : Inputs) (rec : CropRec) : List PlanTask :=
  let area := inputs.area_acres
  let crop := rec.crop
  [ { task := "Land preparation and seed purchase for " ++ crop ++ " on " ++ toString area ++ " acres"
      weeks := 1
      notes := "Prepare field, buy certified seeds." },
    { task := "Sowing and initial fertilizer application for " ++ crop
      weeks := 2
      notes := "Sow seeds at recommended spacing. Apply basal fertilizer." },
    { task := "Crop maintenance and harvest planning for " ++ crop
      weeks := 10
      notes := "Irrigation as needed, pest checks, harvesting timeline planning." } ]

/-- The final payload returned by `execute_plan`. -/
structure FinalResult where
  recommendation : String
  plan : List PlanTask
  costs : List (String × ℚ)
  rationale : String
deriving Repr, DecidableEq

/-! ### `execute_plan` -/

/-- The input-resolution prefix of `execute_plan`: default fallbacks,
`float()` coercions (which propagate Python exceptions), and the
soil-moisture override of the qualitative moisture bucket. -/
def computeInputs (mem : Mem) : Except PyErr Inputs := do
  let area ← pyFloatE (memGetD mem "area_acres" (.num 1))
  let soil_type := pyLower (pyStr (memGetD mem "soil_type" (.str "clay")))
  let ph ← pyFloatE (memGetD mem "ph" (.num (13/2)))
  let moisture0 := pyLower (pyStr (memGetD mem "moisture" (.str "medium")))
  let moisture :=
    if memContains mem "soil_moisture" then
      match pyFloat (memGetD mem "soil_moisture" .none) with
      | some sm =>
          if sm < 15/100 then "low"
          else if sm < 35/100 then "medium"
          else "high"
      | Option.none => moisture0
    else moisture0
  pure { area_acres := area, soil_type := soil_type, ph := ph, moisture := moisture }

/-- `Agent.execute_plan` (the `plan` argument is accepted but unused, as in
the source). -/
def execute_plan (_plan : List Step) (mem : Mem) : Except PyErr FinalResult := do
  let inputs ← computeInputs mem
  let rec' := crop_recommendation_tool inputs
  let plan_out := build_action_plan inputs rec'
  pure { recommendation := "Recommended crop: " ++ rec'.crop ++ " (confidence: " ++ rec'.confidence ++ ")"
         plan := plan_out
         costs := rec'.estimated_costs
         rationale := rec'.reason }

/-! ### Enrichment gateway and payload merge -/

/-- Shape tests mirroring Python `isinstance`. -/
def isList : Value → Bool
  | .list _ => true
  | _ => false

/-- Python `xs[i]` (used only at index 0 in the source). -/
def pyIndex : Value → Nat → Except PyErr Value
  | .list vs, i =>
      match vs.get? i with
      | some v => .ok v
      | Option.none => .error .indexError
  | _, _ => .error (.typeError "object is not indexable")

/-- `x[0] if isinstance(x, list) and x else x` from `_store_agro_payloads`. -/
def extractFirst (p : Value) : Except PyErr Value :=
  if isList p && isTruthy p then pyIndex p 0 else pure p

/-- One guarded store of the soil half: `try: mem[key] = float(raw)
except: mem[key] = raw`. -/
def coerceStore (mem : Mem) (key : String) (raw : Value) : Mem :=
  match pyFloat raw with
  | some q => memSet mem key (.num q)
  | Option.none => memSet mem key raw

/-- The soil half of the merge: coerce `soil_moisture` / `soil_temp` to
float, falling back to storing the raw value when `float()` raises. -/
def soilMerge (mem : Mem) (kvs : List (String × Value)) : Mem :=
  let mem :=
    match dictFind? kvs "soil_moisture" with
    | some raw => coerceStore mem "soil_moisture" raw
    | Option.none => mem
  match dictFind? kvs "soil_temp" with
  | some raw => coerceStore mem "soil_temp_k" raw
  | Option.none => mem

/-- The weather half of the merge: copy `rain`, `temperature`, `ts`
verbatim under the `agro_*` keys when present. -/
def weatherMerge (mem : Mem) (kvs : List (String × Value)) : Mem :=
  let mem :=
    match dictFind? kvs "rain" with
    | some v => memSet mem "agro_precip" v
    | Option.none => mem
  let mem :=
    match dictFind? kvs "temperature" with
    | some v => memSet mem "agro_temp_k" v
    | Option.none => mem
  match dictFind? kvs "ts" with
  | some v => memSet mem "agro_weather_ts" v
  | Option.none => mem

/-- One payload's processing inside `_store_agro_payloads`'s `try`:
`if p:` then take the first element when it is a list, then merge when the
result is a mapping. -/
def applyPayload (mem : Mem) (p : Value)
    (merge : Mem → List (String × Value) → Mem) : Except PyErr Mem :=
  if isTruthy p then do
    let s ← extractFirst p
    pure (match s with
          | .dict kvs => merge mem kvs
          | _ => mem)
  else pure mem

/-- The body of `_store_agro_payloads` (everything inside its `try`). -/
def store_agro_body (mem : Mem) (soil weather : Value) : Except PyErr Mem := do
  let mem1 ← applyPayload mem soil soilMerge
  applyPayload mem1 weather weatherMerge

/-- `Agent._store_agro_payloads`: body wrapped in `try/except` (a raised
exception would leave memory as the body left it before raising; the body is
proved exception-free below, so returning the prior memory on error is a
safe encoding of the `except` arm). -/
def store_agro_payloads (mem : Mem) (soil weather : Value) : Mem :=
  match store_agro_body mem soil weather with
  | .ok m => m
  | .error _ => mem

/-- The external world as seen by one turn: API key, the wall-clock polygon
name, and the gateway's responses (`none` models a non-success or failed
HTTP call; a `Value` models `resp.json()`). -/
structure Gateway where
  apiKey : String
  polyName : String
  createResp : Option Value
  soilResp : String → Value
  weatherResp : String → Value
  deleteOk : Bool

/-- `Agent.get_soil_by_polyid` (returns `None` on missing key/polyid or a
failed fetch). -/
def get_soil_by_polyid (gw : Gateway) (polyid : Value) : Value :=
  if pyTrim gw.apiKey = "" ∨ isTruthy polyid = false then .none
  else gw.soilResp (pyStr polyid)

/-- `Agent.get_weather_by_polyid`. -/
def get_weather_by_polyid (gw : Gateway) (polyid : Value) : Value :=
  if pyTrim gw.apiKey = "" ∨ isTruthy polyid = false then .none
  else gw.weatherResp (pyStr polyid)

/-- Structural equality standing in for Python `==` in
`delete_polygon_by_id`'s scan (the compared values there are polygon-id
strings or `None`, where the two notions agree). -/
def valueEqB : Value → Value → Bool
  | .str a, .str b => a = b
  | .num a, .num b => a = b
  | .none, .none => true
  | _, _ => false

/-- `Agent.create_polygon_from_geojson`, specialised to the call from
`fetch_agro_for_location` (the argument there is always a GeoJSON Feature
dict, so the FeatureCollection branches reduce to using it directly).
Returns the updated memory and the created object, `none` on any of the
source's silent-failure paths (missing key, failed POST, or a `TypeError`
inside the `try` when `memory["polygons"]` exists but is not a dict). -/
def create_polygon (gw : Gateway) (mem : Mem) : Mem × Option Value :=
  if pyTrim gw.apiKey = "" then (mem, Option.none)
  else
    match gw.createResp with
    | Option.none => (mem, Option.none)
    | some obj =>
        match obj with
        | .dict okvs =>
            let polyid := (dictFind? okvs "id").getD .none
            (match memFind? mem "polygons" with
             | some (.dict pkvs) =>
                 let mem := memSet mem "polygons" (.dict (dictSet pkvs gw.polyName polyid))
                 (memSet mem "last_polygon" obj, some obj)
             | some _ => (mem, Option.none)
             | Option.none =>
                 let mem := memSet mem "polygons" (.dict (dictSet [] gw.polyName polyid))
                 (memSet mem "last_polygon" obj, some obj))
        | _ => (mem, Option.none)

/-- `Agent.delete_polygon_by_id`'s effect on memory (the HTTP delete is
`gw.deleteOk`; on success, polygon entries whose value equals the id are
removed from the `polygons` dict). -/
def delete_polygon (gw : Gateway) (mem : Mem) (polyid : Value) : Mem :=
  if pyTrim gw.apiKey = "" ∨ isTruthy polyid = false then mem
  else if gw.deleteOk then
    match memFind? mem "polygons" with
    | some (.dict pkvs) =>
        memSet mem "polygons" (.dict (pkvs.filter (fun p => !valueEqB p.2 polyid)))
    | _ => mem
  else mem

/-- The `polyid = None; if created: polyid = created.get("id")` step of
`fetch_agro_for_location`. -/
def createdPolyid : Option Value → Value
  | some obj =>
      if isTruthy obj then
        (match obj with
         | .dict okvs => (dictFind? okvs "id").getD .none
         | _ => .none)
      else .none
  | Option.none => .none

/-- `Agent.fetch_agro_for_location` with `cleanup=True` (the only call in
the dialogue flow): build/post the temporary polygon, fetch soil and
weather, merge, tear down.  Returns the updated memory (the returned
`{"soil": ..., "weather": ...}` value is unused by the caller). -/
def fetch_agro_for_location (gw : Gateway) (mem : Mem) : Mem :=
  if pyTrim gw.apiKey = "" then mem
  else
    let cp := create_polygon gw mem
    let polyid := createdPolyid cp.2
    if isTruthy polyid = false then cp.1
    else
      let soil := get_soil_by_polyid gw polyid
      let weather := get_weather_by_polyid gw polyid
      delete_polygon gw (store_agro_payloads cp.1 soil weather) polyid

/-! ### Dialogue controller -/

/-- Claim-relevant observable actions of a `provide_followup_answers` turn
(the source records these moments in its string log). -/
inductive Event where
  | interpret_polyid (loc : String)
  | parsed_coords (lat lon : ℚ)
  | fetch_by_coord (lat lon : ℚ)
  | bad_location (loc : String)
  | fetch_by_polyid (polyid : String)
deriving Repr, DecidableEq

/-- A response returned to the presentation layer. -/
inductive Resp where
  | followup (questions : List String)
  | final (result : FinalResult)
deriving Repr, DecidableEq

/-- Is the response a `{"type": "final", ...}` payload? -/
def Resp.isFinal : Resp → Bool
  | .final _ => true
  | .followup _ => false

/-- The `Agent` object's state (log strings carry wall-clock timestamps and
are replaced by the structured `events` trace). -/
structure AgentState where
  memory : Mem := []
  pending_questions : List String := []
  last_user_input : String := ""
  last_result : Option FinalResult := Option.none
  events : List Event := []

/-- `Agent.__init__`. -/
def agentInit : AgentState := {}

/-- `Agent.handle_user_input`.  State mutations performed before a raise
survive on the object, so the new state is returned alongside the
possibly-raising response. -/
def handle_user_input (a : AgentState) (text : String) :
    AgentState × Except PyErr Resp :=
  let a := { a with last_user_input := text }
  let plan := simple_planner text
  let missing := identify_missing_fields plan a.memory
  if missing ≠ [] then
    ({ a with pending_questions := missing }, .ok (.followup missing))
  else
    match execute_plan plan a.memory with
    | .ok final => ({ a with last_result := some final }, .ok (.final final))
    | .error e => (a, .error e)

/-- The answer-storing loop at the top of `provide_followup_answers`. -/
def storeAnswers (mem : Mem) (answers : List (String × Value)) : Mem :=
  answers.foldl (fun m qa =>
    let field := (question_to_field qa.1).getD (safe_key_from_question qa.1)
    memSet m field (parse_answer_for_field field qa.2)) mem

/-- The location-classification block of `provide_followup_answers`:
polygon-identifier detection, else coordinate parsing and coordinate-based
enrichment (whose parse failures are caught and only logged). -/
def locationPhase (gw : Gateway) (mem : Mem) : Mem × List Event :=
  match memFind? mem "location" with
  | some (.str loc) =>
      if strContains loc "," = false ∧ 6 ≤ loc.length then
        (memSet mem "polyid" (.str loc), [.interpret_polyid loc])
      else if strContains loc "," then
        match splitComma loc with
        | [lat_s, lon_s] =>
            (match pyFloatOfString (pyTrim lat_s) with
             | some lat =>
                 (match pyFloatOfString (pyTrim lon_s) with
                  | some lon =>
                      (fetch_agro_for_location gw mem,
                       [.parsed_coords lat lon, .fetch_by_coord lat lon])
                  | Option.none => (mem, [.bad_location loc]))
             | Option.none => (mem, [.bad_location loc]))
        | _ => (mem, [.bad_location loc])
      else (mem, [])
  | some _ => (mem, [])
  | Option.none => (mem, [])

/-- The polygon-id block of `provide_followup_answers`: when a truthy
`polyid` is in memory, fetch soil/weather for it and merge. -/
def polyidPhase (gw : Gateway) (mem : Mem) : Mem × List Event :=
  if memContains mem "polyid" then
    let polyid := memGetD mem "polyid" .none
    if isTruthy polyid then
      let soil := get_soil_by_polyid gw polyid
      let weather := get_weather_by_polyid gw polyid
      (store_agro_payloads mem soil weather, [.fetch_by_polyid (pyStr polyid)])
    else (mem, [])
  else (mem, [])

/-- `Agent.provide_followup_answers`: store answers, classify location,
fetch by polygon id, then recompute the plan from `last_user_input` and
execute it unconditionally. -/
def provide_followup_answers (gw : Gateway) (a : AgentState)
    (answers : List (String × Value)) : AgentState × Except PyErr Resp :=
  let mem1 := storeAnswers a.memory answers
  let (mem2, ev2) := locationPhase gw mem1
  let (mem3, ev3) := polyidPhase gw mem2
  let a := { a with memory := mem3, events := a.events ++ ev2 ++ ev3 }
  let plan := simple_planner a.last_user_input
  match execute_plan plan mem3 with
  | .ok final => ({ a with last_result := some final }, .ok (.final final))
  | .error e => (a, .error e)

/-! ### Derived notions used to state the claims -/

/-- The union (as a list, in step order) of the `requires` lists of a plan. -/
def unionRequires (plan : List Step) : List String :=
  plan.foldr (fun st acc => st.requires ++ acc) []

/-- Did a public entry point return a `{"type": "final"}` payload? -/
def respIsFinalB : Except PyErr Resp → Bool
  | .ok r => r.isFinal
  | .error _ => false

/-- Did a public entry point return a `{"type": "followup"}` payload? -/
def respIsFollowupB : Except PyErr Resp → Bool
  | .ok (.followup _) => true
  | _ => false

/-- A gateway with no API key configured and failing responses: the
environment of a run with no network access. -/
def gwEmpty : Gateway :=
  { apiKey := "", polyName := "field_0", createResp := Option.none,
    soilResp := fun _ => .none, weatherResp := fun _ => .none, deleteOk := false }

/-- Events that witness an attempt to treat the location as a coordinate
pair (parsing it, failing to parse it, or coordinate-based enrichment). -/
def Event.isCoordAttempt : Event → Bool
  | .parsed_coords _ _ => true
  | .fetch_by_coord _ _ => true
  | .bad_location _ => true
  | _ => false

/-- First-seen-order deduplication of the missing-field texts (the field
half of `identify_missing_fields`'s second loop, before the question
conversion). -/
def dedupFirst : List String → List String → List String
  | [], _ => []
  | m :: rest, seen =>
      if seen.contains m then dedupFirst rest seen
      else m :: dedupFirst rest (m :: seen)

/-- Does an optional memory value coerce under `float()` (absent counts as
coercible: `execute_plan` then uses the numeric default)? -/
def optCoerces : Option Value → Bool
  | Option.none => true
  | some v => (pyFloat v).isSome

/-- The stored `area_acres` and `ph` values (if any) both coerce to
numbers, so `execute_plan`'s `float()` calls cannot raise. -/
def numOkB (m : Mem) : Bool :=
  optCoerces (memFind? m "area_acres") && optCoerces (memFind? m "ph")

/-- The memory keys written by the enrichment merge. -/
def enrichKeys : List String :=
  ["soil_moisture", "soil_temp_k", "agro_precip", "agro_temp_k", "agro_weather_ts"]

/-- All memory keys the location/polyid phases may write. -/
def locKeys : List String :=
  "polyid" :: "polygons" :: "last_polygon" :: enrichKeys

/-- `m'` arises from `m` by writing only keys in `ks`: membership is
preserved and everything outside `ks` is untouched. -/
def preservesOutside (ks : List String) (m m' : Mem) : Prop :=
  (∀ k, memContains m k = true → memContains m' k = true) ∧
  (∀ k, k ∉ ks → memFind? m' k = memFind? m k)

/-- The memory `provide_followup_answers` finalizes from: answers stored,
location classified, polygon-id enrichment merged. -/
def postMem (gw : Gateway) (a : AgentState) (answers : List (String × Value)) : Mem :=
  (polyidPhase gw (locationPhase gw (storeAnswers a.memory answers)).1).1

/-! ## Lemmas about the memory map -/

theorem memFind?_memSet_self (m : Mem) (k : String) (v : Value) :
    memFind? (memSet m k v) k = some v := by
  induction m with
  | nil => simp [memSet, memFind?]
  | cons p rest ih =>
      obtain ⟨k', v'⟩ := p
      by_cases h : k' = k
      · simp [memSet, memFind?, h]
      · simp [memSet, memFind?, h, ih]

theorem memFind?_memSet_ne (m : Mem) (k k' : String) (v : Value) (h : k' ≠ k) :
    memFind? (memSet m k v) k' = memFind? m k' := by
  have hne : ¬(k = k') := fun e => h (Eq.symm e)
  induction m with
  | nil => simp [memSet, memFind?, hne]
  | cons p rest ih =>
      obtain ⟨k'', v''⟩ := p
      by_cases hk : k'' = k
      · subst hk
        simp [memSet, memFind?, hne]
      · by_cases hk' : k'' = k'
        · simp [memSet, memFind?, hk, hk', h]
        · simp [memSet, memFind?, hk, hk', ih]

theorem memContains_memSet_of (m : Mem) (k k' : String) (v : Value)
    (h : memContains m k' = true) : memContains (memSet m k v) k' = true := by
  by_cases hk : k' = k
  · subst hk
    simp [memContains, memFind?_memSet_self]
  · simpa [memContains, memFind?_memSet_ne m k k' v hk] using h

theorem memContains_eq_false_iff (m : Mem) (k : String) :
    memContains m k = false ↔ memFind? m k = Option.none := by
  unfold memContains
  cases memFind? m k <;> simp

/-! ## `preservesOutside`: phases only write their own keys -/

theorem preservesOutside_refl (ks : List String) (m : Mem) :
    preservesOutside ks m m :=
  ⟨fun _ h => h, fun _ _ => rfl⟩

theorem preservesOutside_trans {ks : List String} {m1 m2 m3 : Mem}
    (h12 : preservesOutside ks m1 m2) (h23 : preservesOutside ks m2 m3) :
    preservesOutside ks m1 m3 :=
  ⟨fun k h => h23.1 k (h12.1 k h),
   fun k hk => (h23.2 k hk).trans (h12.2 k hk)⟩

theorem preservesOutside_memSet (ks : List String) (m : Mem) (k : String)
    (v : Value) (hk : k ∈ ks) : preservesOutside ks m (memSet m k v) := by
  refine ⟨fun k' h => memContains_memSet_of m k k' v h, fun k' hk' => ?_⟩
  have hne : k' ≠ k := fun e => hk' (e ▸ hk)
  exact memFind?_memSet_ne m k k' v hne

theorem preservesOutside_step (ks : List String) {m m1 : Mem} (k : String)
    (v : Value) (hk : k ∈ ks) (h : preservesOutside ks m m1) :
    preservesOutside ks m (memSet m1 k v) :=
  preservesOutside_trans h (preservesOutside_memSet ks m1 k v hk)

theorem preservesOutside_mono {ks ks' : List String} {m m' : Mem}
    (hsub : ∀ k, k ∈ ks → k ∈ ks') (h : preservesOutside ks m m') :
    preservesOutside ks' m m' :=
  ⟨h.1, fun k hk => h.2 k (fun hmem => hk (hsub k hmem))⟩

theorem coerceStore_po (ks : List String) {m m1 : Mem} (k : String)
    (raw : Value) (hk : k ∈ ks) (h : preservesOutside ks m m1) :
    preservesOutside ks m (coerceStore m1 k raw) := by
  unfold coerceStore
  cases pyFloat raw <;> exact preservesOutside_step ks k _ hk h

theorem soilMerge_po (m : Mem) (kvs : List (String × Value)) :
    preservesOutside enrichKeys m (soilMerge m kvs) := by
  unfold soilMerge
  have h1 : preservesOutside enrichKeys m
      (match dictFind? kvs "soil_moisture" with
       | some raw => coerceStore m "soil_moisture" raw
       | Option.none => m) := by
    cases dictFind? kvs "soil_moisture" with
    | none => exact preservesOutside_refl _ _
    | some raw =>
        exact coerceStore_po _ _ raw (by simp [enrichKeys]) (preservesOutside_refl _ _)
  cases dictFind? kvs "soil_temp" with
  | none => simpa using h1
  | some raw =>
      simpa using coerceStore_po _ _ raw (by simp [enrichKeys]) h1

theorem weatherMerge_po (m : Mem) (kvs : List (String × Value)) :
    preservesOutside enrichKeys m (weatherMerge m kvs) := by
  unfold weatherMerge
  have h1 : preservesOutside enrichKeys m
      (match dictFind? kvs "rain" with
       | some v => memSet m "agro_precip" v
       | Option.none => m) := by
    cases dictFind? kvs "rain" with
    | none => exact preservesOutside_refl _ _
    | some v =>
        exact preservesOutside_step _ _ v (by simp [enrichKeys]) (preservesOutside_refl _ _)
  have h2 : preservesOutside enrichKeys m
      (match dictFind? kvs "temperature" with
       | some v =>
           memSet (match dictFind? kvs "rain" with
                   | some v' => memSet m "agro_precip" v'
                   | Option.none => m) "agro_temp_k" v
       | Option.none =>
           (match dictFind? kvs "rain" with
            | some v' => memSet m "agro_precip" v'
            | Option.none => m)) := by
    cases dictFind? kvs "temperature" with
    | none => exact h1
    | some v => exact preservesOutside_step _ _ v (by simp [enrichKeys]) h1
  cases dictFind? kvs "ts" with
  | none => simpa using h2
  | some v => simpa using preservesOutside_step _ _ v (by simp [enrichKeys]) h2

/-! ## The enrichment merge never raises and only writes enrichment keys -/

theorem extractFirst_ok (p : Value) : ∃ s, extractFirst p = .ok s := by
  cases p with
  | list vs =>
      cases vs with
      | nil => exact ⟨.list [], rfl⟩
      | cons x rest => exact ⟨x, rfl⟩
  | str s => exact ⟨.str s, rfl⟩
  | num q => exact ⟨.num q, rfl⟩
  | none => exact ⟨.none, rfl⟩
  | dict kvs => exact ⟨.dict kvs, rfl⟩

theorem applyPayload_ok (mem : Mem) (p : Value)
    (merge : Mem → List (String × Value) → Mem)
    (hmerge : ∀ m kvs, preservesOutside enrichKeys m (merge m kvs)) :
    ∃ m', applyPayload mem p merge = .ok m' ∧ preservesOutside enrichKeys mem m' := by
  by_cases ht : isTruthy p = true
  · obtain ⟨s, hs⟩ := extractFirst_ok p
    cases s with
    | dict kvs =>
        refine ⟨merge mem kvs, ?_, hmerge mem kvs⟩
        unfold applyPayload
        rw [if_pos ht, hs]
        rfl
    | str s' =>
        refine ⟨mem, ?_, preservesOutside_refl _ _⟩
        unfold applyPayload
        rw [if_pos ht, hs]
        rfl
    | num q =>
        refine ⟨mem, ?_, preservesOutside_refl _ _⟩
        unfold applyPayload
        rw [if_pos ht, hs]
        rfl
    | none =>
        refine ⟨mem, ?_, preservesOutside_refl _ _⟩
        unfold applyPayload
        rw [if_pos ht, hs]
        rfl
    | list vs =>
        refine ⟨mem, ?_, preservesOutside_refl _ _⟩
        unfold applyPayload
        rw [if_pos ht, hs]
        rfl
  · refine ⟨mem, ?_, preservesOutside_refl _ _⟩
    unfold applyPayload
    rw [if_neg ht]
    rfl

theorem store_agro_body_ok (mem : Mem) (soil weather : Value) :
    ∃ m', store_agro_body mem soil weather = .ok m' ∧
      preservesOutside enrichKeys mem m' := by
  obtain ⟨m1, h1, hp1⟩ := applyPayload_ok mem soil soilMerge soilMerge_po
  obtain ⟨m2, h2, hp2⟩ := applyPayload_ok m1 weather weatherMerge weatherMerge_po
  refine ⟨m2, ?_, preservesOutside_trans hp1 hp2⟩
  unfold store_agro_body
  rw [h1]
  exact h2

theorem store_agro_payloads_po (mem : Mem) (soil weather : Value) :
    preservesOutside enrichKeys mem (store_agro_payloads mem soil weather) := by
  obtain ⟨m', h, hp⟩ := store_agro_body_ok mem soil weather
  simpa [store_agro_payloads, h] using hp

theorem enrichKeys_sub_locKeys : ∀ k, k ∈ enrichKeys → k ∈ locKeys := by
  intro k hk
  unfold locKeys
  exact List.mem_cons_of_mem _ (List.mem_cons_of_mem _ (List.mem_cons_of_mem _ hk))

theorem store_agro_payloads_po_loc (mem : Mem) (soil weather : Value) :
    preservesOutside locKeys mem (store_agro_payloads mem soil weather) :=
  preservesOutside_mono enrichKeys_sub_locKeys (store_agro_payloads_po mem soil weather)

/-! ## The gateway helpers only write polygon bookkeeping and enrichment keys -/

theorem create_polygon_po (gw : Gateway) (m : Mem) :
    preservesOutside locKeys m (create_polygon gw m).1 := by
  unfold create_polygon
  by_cases hk : pyTrim gw.apiKey = ""
  · rw [if_pos hk]
    exact preservesOutside_refl _ _
  · rw [if_neg hk]
    cases gw.createResp with
    | none => exact preservesOutside_refl _ _
    | some obj =>
        cases obj with
        | dict okvs =>
            cases hpf : memFind? m "polygons" with
            | none =>
                simp only [hpf]
                exact preservesOutside_step _ "last_polygon" _ (by simp [locKeys])
                  (preservesOutside_memSet _ _ "polygons" _ (by simp [locKeys]))
            | some v =>
                cases v <;> simp only [hpf] <;>
                  first
                    | exact preservesOutside_refl _ _
                    | exact preservesOutside_step _ "last_polygon" _ (by simp [locKeys])
                        (preservesOutside_memSet _ _ "polygons" _ (by simp [locKeys]))
        | str s => exact preservesOutside_refl _ _
        | num q => exact preservesOutside_refl _ _
        | none => exact preservesOutside_refl _ _
        | list vs => exact preservesOutside_refl _ _

theorem delete_polygon_po (gw : Gateway) (m : Mem) (polyid : Value) :
    preservesOutside locKeys m (delete_polygon gw m polyid) := by
  unfold delete_polygon
  by_cases hk : pyTrim gw.apiKey = "" ∨ isTruthy polyid = false
  · rw [if_pos hk]
    exact preservesOutside_refl _ _
  · rw [if_neg hk]
    by_cases hd : gw.deleteOk = true
    · rw [if_pos hd]
      cases hpf : memFind? m "polygons" with
      | none => exact preservesOutside_refl _ _
      | some v =>
          cases v <;> simp only [hpf] <;>
            first
              | exact preservesOutside_refl _ _
              | exact preservesOutside_memSet _ _ "polygons" _ (by simp [locKeys])
    · rw [if_neg hd]
      exact preservesOutside_refl _ _

theorem fetch_agro_po (gw : Gateway) (m : Mem) :
    preservesOutside locKeys m (fetch_agro_for_location gw m) := by
  unfold fetch_agro_for_location
  by_cases hk : pyTrim gw.apiKey = ""
  · rw [if_pos hk]
    exact preservesOutside_refl _ _
  · rw [if_neg hk]
    dsimp only
    by_cases ht : isTruthy (createdPolyid (create_polygon gw m).2) = false
    · rw [if_pos ht]
      exact create_polygon_po gw m
    · rw [if_neg ht]
      exact preservesOutside_trans (create_polygon_po gw m)
        (preservesOutside_trans (store_agro_payloads_po_loc _ _ _)
          (delete_polygon_po gw _ _))

/-! ## The two enrichment phases of `provide_followup_answers` -/

theorem polyidPhase_po (gw : Gateway) (m : Mem) :
    preservesOutside locKeys m (polyidPhase gw m).1 := by
  unfold polyidPhase
  by_cases hc : memContains m "polyid" = true
  · rw [if_pos hc]
    by_cases ht : isTruthy (memGetD m "polyid" .none) = true
    · rw [if_pos ht]
      exact store_agro_payloads_po_loc m _ _
    · rw [if_neg ht]
      exact preservesOutside_refl _ _
  · rw [if_neg hc]
    exact preservesOutside_refl _ _

theorem locationPhase_po (gw : Gateway) (m : Mem) :
    preservesOutside locKeys m (locationPhase gw m).1 := by
  unfold locationPhase
  split
  · split
    · exact preservesOutside_memSet _ _ "polyid" _ (by simp [locKeys])
    · split
      · split
        · split
          · split
            · exact fetch_agro_po gw m
            · exact preservesOutside_refl _ _
          · exact preservesOutside_refl _ _
        · exact preservesOutside_refl _ _
      · exact preservesOutside_refl _ _
  · exact preservesOutside_refl _ _
  · exact preservesOutside_refl _ _

theorem postMem_po (gw : Gateway) (a : AgentState) (answers : List (String × Value)) :
    preservesOutside locKeys (storeAnswers a.memory answers) (postMem gw a answers) := by
  unfold postMem
  exact preservesOutside_trans (locationPhase_po gw _) (polyidPhase_po gw _)

/-! ## `execute_plan` raises exactly when a stored numeric field fails to coerce -/

theorem exceptBindOk {α β : Type} (a : α) (f : α → Except PyErr β) :
    (Except.ok a : Except PyErr α) >>= f = f a := rfl

theorem exceptBindErr {α β : Type} (e : PyErr) (f : α → Except PyErr β) :
    (Except.error e : Except PyErr α) >>= f = .error e := rfl

theorem pyFloatE_getD_ok (m : Mem) (k : String) (q0 : ℚ)
    (h : optCoerces (memFind? m k) = true) :
    ∃ q, pyFloatE (memGetD m k (.num q0)) = .ok q := by
  unfold memGetD
  cases hf : memFind? m k with
  | none => exact ⟨q0, rfl⟩
  | some v =>
      rw [hf] at h
      have h' : (pyFloatE v).toOption.isSome = true := h
      cases he : pyFloatE v with
      | ok q =>
          refine ⟨q, ?_⟩
          simpa [Option.getD_some] using he
      | error e =>
          rw [he] at h'
          simp [Except.toOption] at h'

theorem computeInputs_isOk (m : Mem) (h : numOkB m = true) :
    (computeInputs m).isOk = true := by
  have hand := h
  unfold numOkB at hand
  rw [Bool.and_eq_true] at hand
  obtain ⟨q1, h1⟩ := pyFloatE_getD_ok m "area_acres" 1 hand.1
  obtain ⟨q2, h2⟩ := pyFloatE_getD_ok m "ph" (13/2) hand.2
  unfold computeInputs
  simp only [h1, h2, exceptBindOk]
  rfl

theorem execute_plan_isOk (plan : List Step) (m : Mem) :
    (execute_plan plan m).isOk = (computeInputs m).isOk := by
  unfold execute_plan
  cases h : computeInputs m with
  | ok i => simp only [h, exceptBindOk]; rfl
  | error e => simp only [h, exceptBindErr]; rfl

/-! ## Shape of the two public entry points -/

theorem handle_resp_eq (a : AgentState) (text : String) :
    (handle_user_input a text).2 =
      (if identify_missing_fields (simple_planner text) a.memory ≠ [] then
        .ok (.followup (identify_missing_fields (simple_planner text) a.memory))
      else (execute_plan (simple_planner text) a.memory).map Resp.final) := by
  unfold handle_user_input
  dsimp only
  by_cases hm : identify_missing_fields (simple_planner text) a.memory ≠ []
  · rw [if_pos hm, if_pos hm]
  · rw [if_neg hm, if_neg hm]
    cases he : execute_plan (simple_planner text) a.memory with
    | ok f => rfl
    | error e => rfl

theorem provide_resp_eq (gw : Gateway) (a : AgentState)
    (answers : List (String × Value)) :
    (provide_followup_answers gw a answers).2 =
      (execute_plan (simple_planner a.last_user_input) (postMem gw a answers)).map Resp.final := by
  unfold provide_followup_answers postMem
  dsimp only
  rcases hl : locationPhase gw (storeAnswers a.memory answers) with ⟨mem2, ev2⟩
  rcases hp : polyidPhase gw mem2 with ⟨mem3, ev3⟩
  simp only [hl, hp]
  cases he : execute_plan (simple_planner a.last_user_input) mem3 with
  | ok f => rfl
  | error e => rfl

theorem provide_memory_eq (gw : Gateway) (a : AgentState)
    (answers : List (String × Value)) :
    (provide_followup_answers gw a answers).1.memory = postMem gw a answers := by
  unfold provide_followup_answers postMem
  dsimp only
  rcases hl : locationPhase gw (storeAnswers a.memory answers) with ⟨mem2, ev2⟩
  rcases hp : polyidPhase gw mem2 with ⟨mem3, ev3⟩
  simp only [hl, hp]
  cases he : execute_plan (simple_planner a.last_user_input) mem3 with
  | ok f => rfl
  | error e => rfl

theorem provide_events_eq (gw : Gateway) (a : AgentState)
    (answers : List (String × Value)) :
    (provide_followup_answers gw a answers).1.events =
      a.events ++ (locationPhase gw (storeAnswers a.memory answers)).2 ++
        (polyidPhase gw (locationPhase gw (storeAnswers a.memory answers)).1).2 := by
  unfold provide_followup_answers
  dsimp only
  rcases hl : locationPhase gw (storeAnswers a.memory answers) with ⟨mem2, ev2⟩
  rcases hp : polyidPhase gw mem2 with ⟨mem3, ev3⟩
  simp only [hl, hp]
  cases he : execute_plan (simple_planner a.last_user_input) mem3 with
  | ok f => rfl
  | error e => rfl

theorem numOkB_postMem (gw : Gateway) (a : AgentState)
    (answers : List (String × Value)) :
    numOkB (postMem gw a answers) = numOkB (storeAnswers a.memory answers) := by
  have hpo := postMem_po gw a answers
  have ha : memFind? (postMem gw a answers) "area_acres" =
      memFind? (storeAnswers a.memory answers) "area_acres" :=
    hpo.2 "area_acres" (by decide)
  have hp : memFind? (postMem gw a answers) "ph" =
      memFind? (storeAnswers a.memory answers) "ph" :=
    hpo.2 "ph" (by decide)
  unfold numOkB
  rw [ha, hp]

/-! ## The missing-field resolver: dedup and order -/

theorem dedupFirst_cons_pos (m : String) (rest seen : List String)
    (h : seen.contains m = true) :
    dedupFirst (m :: rest) seen = dedupFirst rest seen := by
  rw [show dedupFirst (m :: rest) seen =
      (if seen.contains m = true then dedupFirst rest seen
       else m :: dedupFirst rest (m :: seen)) from rfl, if_pos h]

theorem dedupFirst_cons_neg (m : String) (rest seen : List String)
    (h : seen.contains m = false) :
    dedupFirst (m :: rest) seen = m :: dedupFirst rest (m :: seen) := by
  rw [show dedupFirst (m :: rest) seen =
      (if seen.contains m = true then dedupFirst rest seen
       else m :: dedupFirst rest (m :: seen)) from rfl,
    if_neg (by rw [h]; exact Bool.false_ne_true)]

theorem dedupQuestions_cons_pos (m : String) (rest seen : List String)
    (h : seen.contains m = true) :
    dedupQuestions (m :: rest) seen = dedupQuestions rest seen := by
  rw [show dedupQuestions (m :: rest) seen =
      (if seen.contains m = true then dedupQuestions rest seen
       else field_to_question m :: dedupQuestions rest (m :: seen)) from rfl, if_pos h]

theorem dedupQuestions_cons_neg (m : String) (rest seen : List String)
    (h : seen.contains m = false) :
    dedupQuestions (m :: rest) seen =
      field_to_question m :: dedupQuestions rest (m :: seen) := by
  rw [show dedupQuestions (m :: rest) seen =
      (if seen.contains m = true then dedupQuestions rest seen
       else field_to_question m :: dedupQuestions rest (m :: seen)) from rfl,
    if_neg (by rw [h]; exact Bool.false_ne_true)]

theorem contains_false_of_not_eq_true {seen : List String} {m : String}
    (h : ¬seen.contains m = true) : seen.contains m = false := by
  revert h
  cases seen.contains m <;> simp

theorem dedupQuestions_eq_map (l : List String) :
    ∀ seen, dedupQuestions l seen = (dedupFirst l seen).map field_to_question := by
  induction l with
  | nil => intro seen; rfl
  | cons m rest ih =>
      intro seen
      by_cases h : seen.contains m = true
      · rw [dedupQuestions_cons_pos m rest seen h, dedupFirst_cons_pos m rest seen h]
        exact ih seen
      · have hf := contains_false_of_not_eq_true h
        rw [dedupQuestions_cons_neg m rest seen hf, dedupFirst_cons_neg m rest seen hf,
          List.map_cons]
        rw [ih (m :: seen)]

theorem dedupFirst_not_seen (l : List String) :
    ∀ seen, ∀ x ∈ dedupFirst l seen, seen.contains x = false := by
  induction l with
  | nil => intro seen x hx; simp [dedupFirst] at hx
  | cons m rest ih =>
      intro seen x hx
      by_cases h : seen.contains m = true
      · rw [dedupFirst_cons_pos m rest seen h] at hx
        exact ih seen x hx
      · have hf := contains_false_of_not_eq_true h
        rw [dedupFirst_cons_neg m rest seen hf] at hx
        rcases List.mem_cons.mp hx with rfl | hx
        · exact hf
        · have h2 := ih (m :: seen) x hx
          simp only [List.contains_cons, Bool.or_eq_false_iff] at h2
          exact h2.2

theorem dedupFirst_nodup (l : List String) : ∀ seen, (dedupFirst l seen).Nodup := by
  induction l with
  | nil => intro seen; simp [dedupFirst]
  | cons m rest ih =>
      intro seen
      by_cases h : seen.contains m = true
      · rw [dedupFirst_cons_pos m rest seen h]
        exact ih seen
      · have hf := contains_false_of_not_eq_true h
        rw [dedupFirst_cons_neg m rest seen hf]
        refine List.nodup_cons.mpr ⟨?_, ih (m :: seen)⟩
        intro hmem
        have hx := dedupFirst_not_seen rest (m :: seen) m hmem
        simp [List.contains_cons] at hx

theorem mem_dedupFirst (l : List String) :
    ∀ seen t, t ∈ l → seen.contains t = false → t ∈ dedupFirst l seen := by
  induction l with
  | nil => intro seen t ht _; simp at ht
  | cons m rest ih =>
      intro seen t ht hs
      by_cases h : seen.contains m = true
      · rw [dedupFirst_cons_pos m rest seen h]
        rcases List.mem_cons.mp ht with rfl | ht2
        · rw [h] at hs
          exact absurd hs (by simp)
        · exact ih seen t ht2 hs
      · have hf := contains_false_of_not_eq_true h
        rw [dedupFirst_cons_neg m rest seen hf]
        by_cases htm : t = m
        · subst htm
          exact List.mem_cons_self _ _
        · rcases List.mem_cons.mp ht with rfl | ht2
          · exact absurd rfl htm
          · refine List.mem_cons_of_mem _ (ih (m :: seen) t ht2 ?_)
            simp only [List.contains_cons, Bool.or_eq_false_iff]
            refine ⟨?_, hs⟩
            simp only [beq_eq_false_iff_ne, ne_eq]
            exact htm

theorem please_provide_inj {a b : String}
    (h : "Please provide " ++ a = "Please provide " ++ b) : a = b := by
  have hd : ("Please provide " ++ a).data = ("Please provide " ++ b).data :=
    congrArg String.data h
  rw [String.data_append, String.data_append] at hd
  have hc := List.append_cancel_left hd
  cases a
  cases b
  exact congrArg String.mk hc

theorem please_take (a t : String) (h : "Please provide " ++ a = t) :
    t.data.take 15 = ("Please provide ").data := by
  rw [← h, String.data_append]
  have h15 : ("Please provide ").data.length = 15 := by decide
  rw [← h15]
  exact List.take_left _ _

theorem field_to_question_inj : Function.Injective field_to_question := by
  intro a b h
  unfold field_to_question at h
  split_ifs at h <;>
    first
      | exact please_provide_inj h
      | exact absurd (please_take _ _ h) (by decide)
      | exact absurd (please_take _ _ h.symm) (by decide)
      | simp_all

/-! ## The soil-moisture override in `execute_plan` -/

theorem computeInputs_moisture_eq (m : Mem) (v : Value) (sm : ℚ)
    (hv : memFind? m "soil_moisture" = some v) (hc : pyFloat v = some sm) :
    ∀ i, computeInputs m = .ok i →
      i.moisture =
        (if sm < 15/100 then "low" else if sm < 35/100 then "medium" else "high") := by
  intro i hi
  unfold computeInputs at hi
  cases h1 : pyFloatE (memGetD m "area_acres" (.num 1)) with
  | error e =>
      rw [h1, exceptBindErr] at hi
      exact absurd hi (by simp)
  | ok q1 =>
      rw [h1, exceptBindOk] at hi
      dsimp only at hi
      cases h2 : pyFloatE (memGetD m "ph" (.num (13/2))) with
      | error e =>
          rw [h2, exceptBindErr] at hi
          exact absurd hi (by simp)
      | ok q2 =>
          rw [h2, exceptBindOk] at hi
          have hcont : memContains m "soil_moisture" = true := by
            simp [memContains, hv]
          have hget : memGetD m "soil_moisture" .none = v := by
            simp [memGetD, hv]
          rw [show (pure : Inputs → Except PyErr Inputs) = Except.ok from rfl] at hi
          injection hi with hi2
          subst hi2
          dsimp only
          rw [if_pos hcont, hget, hc]

/-! ## Membership in the missing-field scan -/

theorem mem_missingScan (plan : List Step) (mem : Mem) (f : String) :
    ∀ st ∈ plan, f ∈ st.requires → memContains mem f = false →
      spaceify f ∈ missingScan plan mem := by
  induction plan with
  | nil => intro st hst; simp at hst
  | cons p rest ih =>
      intro st hst hf hnm
      unfold missingScan
      rw [List.foldr_cons]
      rcases List.mem_cons.mp hst with rfl | hst2
      · refine List.mem_append.mpr (Or.inl ?_)
        refine List.mem_map.mpr ⟨f, ?_, rfl⟩
        refine List.mem_filter.mpr ⟨hf, ?_⟩
        rw [hnm]
        rfl
      · refine List.mem_append.mpr (Or.inr ?_)
        have := ih st hst2 hf hnm
        unfold missingScan at this
        exact this

/-! ## Claim theorems

Each claim of the specification audit is settled by exactly one theorem
below (plus, where needed, a closed counterexample and a closed witness). -/

/-- **C5.** If memory holds `soil_moisture` with a value that coerces to a
number `sm`, then the moisture input resolved by `execute_plan`'s input
phase (`computeInputs`) is overridden to the qualitative bucket
`low` (`sm < 0.15`), `medium` (`0.15 ≤ sm < 0.35`) or `high` (otherwise),
regardless of the stored `moisture` answer. -/
theorem C5_soil_moisture_override (m : Mem) (v : Value) (sm : ℚ) (i : Inputs)
    (hv : memFind? m "soil_moisture" = some v) (hc : pyFloat v = some sm)
    (hi : computeInputs m = .ok i) :
    i.moisture =
      (if sm < 15/100 then "low" else if sm < 35/100 then "medium" else "high") :=
  computeInputs_moisture_eq m v sm hv hc i hi

/-- Witness for C5: `soil_moisture = 0.10` yields moisture `"low"`. -/
theorem C5_witness :
    computeInputs [("soil_moisture", Value.num (1/10))] =
      .ok { area_acres := 1, soil_type := "clay", ph := 13/2, moisture := "low" } ∧
    Inputs.moisture
      { area_acres := 1, soil_type := "clay", ph := 13/2, moisture := "low" } = "low" := by
  constructor
  · rfl
  · have h := C5_soil_moisture_override [("soil_moisture", Value.num (1/10))]
      (Value.num (1/10)) (1/10)
      { area_acres := 1, soil_type := "clay", ph := 13/2, moisture := "low" }
      rfl rfl (by rfl)
    rw [h]
    decide

/-- **C6.** For every canonical field key, mapping it to its question and
back returns exactly that key. -/
theorem C6_question_roundtrip :
    question_to_field (field_to_question "area_acres") = some "area_acres" ∧
    question_to_field (field_to_question "soil_type") = some "soil_type" ∧
    question_to_field (field_to_question "ph") = some "ph" ∧
    question_to_field (field_to_question "moisture") = some "moisture" ∧
    question_to_field (field_to_question "location") = some "location" := by
  refine ⟨?_, ?_, ?_, ?_, ?_⟩ <;> decide

/-- **C9.** The enrichment merge never removes a memory key, and every key
outside the enrichment-derived keys keeps its prior value. -/
theorem C9_enrichment_nondestructive (mem : Mem) (soil weather : Value) (k : String) :
    (memContains mem k = true →
      memContains (store_agro_payloads mem soil weather) k = true) ∧
    (k ∉ enrichKeys →
      memFind? (store_agro_payloads mem soil weather) k = memFind? mem k) := by
  have h := store_agro_payloads_po mem soil weather
  exact ⟨h.1 k, h.2 k⟩

/-- Witness for C9 at a concrete prior memory and payload. -/
theorem C9_witness :
    memContains (store_agro_payloads [("soil_type", Value.str "clay")]
      (.dict [("soil_moisture", Value.num (2/10))]) .none) "soil_type" = true ∧
    memFind? (store_agro_payloads [("soil_type", Value.str "clay")]
      (.dict [("soil_moisture", Value.num (2/10))]) .none) "soil_type" =
      memFind? [("soil_type", Value.str "clay")] "soil_type" := by
  constructor
  · exact (C9_enrichment_nondestructive [("soil_type", Value.str "clay")]
      (.dict [("soil_moisture", Value.num (2/10))]) .none "soil_type").1 (by decide)
  · exact (C9_enrichment_nondestructive [("soil_type", Value.str "clay")]
      (.dict [("soil_moisture", Value.num (2/10))]) .none "soil_type").2 (by decide)

/-- **C10.** A field required by at least two plan steps and absent from
memory produces its question exactly once, and the resolver output is the
first-seen-order deduplication of the in-order missing-field scan. -/
theorem C10_resolver_dedup (plan : List Step) (mem : Mem) (f : String)
    (hcount : 2 ≤ plan.countP (fun st => st.requires.contains f))
    (hmiss : memContains mem f = false) :
    (identify_missing_fields plan mem).count (field_to_question (spaceify f)) = 1 ∧
    identify_missing_fields plan mem =
      (dedupFirst (missingScan plan mem) []).map field_to_question := by
  have heq : identify_missing_fields plan mem =
      (dedupFirst (missingScan plan mem) []).map field_to_question :=
    dedupQuestions_eq_map _ []
  refine ⟨?_, heq⟩
  rw [heq]
  have hex : ∃ st ∈ plan, st.requires.contains f = true := by
    by_contra hno
    push_neg at hno
    have hz : plan.countP (fun st => st.requires.contains f) = 0 := by
      refine List.countP_eq_zero.mpr ?_
      intro st hst
      have := hno st hst
      simpa using this
    rw [hz] at hcount
    exact absurd hcount (by norm_num)
  obtain ⟨st, hst, hreq⟩ := hex
  have hmem : spaceify f ∈ dedupFirst (missingScan plan mem) [] := by
    refine mem_dedupFirst _ [] (spaceify f)
      (mem_missingScan plan mem f st hst ?_ hmiss) rfl
    exact List.mem_of_elem_eq_true hreq
  rw [List.count_map_of_injective _ field_to_question field_to_question_inj]
  exact List.count_eq_one_of_mem (dedupFirst_nodup _ []) hmem

/-- Witness for C10: `ph` required by both steps of a two-step plan. -/
theorem C10_witness :
    (identify_missing_fields
      [{ name := "s1", requires := ["ph", "location"] },
       { name := "s2", requires := ["ph"] }] []).count
        (field_to_question (spaceify "ph")) = 1 ∧
    identify_missing_fields
      [{ name := "s1", requires := ["ph", "location"] },
       { name := "s2", requires := ["ph"] }] [] =
      (dedupFirst (missingScan
        [{ name := "s1", requires := ["ph", "location"] },
         { name := "s2", requires := ["ph"] }] []) []).map field_to_question :=
  C10_resolver_dedup _ _ "ph" (by decide) (by decide)

/-! ## Finer characterization of the enrichment merge (for C8) -/

theorem applyPayload_falsy (mem : Mem) (p : Value)
    (merge : Mem → List (String × Value) → Mem) (h : isTruthy p = false) :
    applyPayload mem p merge = .ok mem := by
  unfold applyPayload
  rw [if_neg (by rw [h]; exact Bool.false_ne_true)]
  rfl

theorem applyPayload_dict (mem : Mem) (kvs : List (String × Value))
    (merge : Mem → List (String × Value) → Mem) (h : isTruthy (Value.dict kvs) = true) :
    applyPayload mem (.dict kvs) merge = .ok (merge mem kvs) := by
  unfold applyPayload
  rw [if_pos h]
  rfl

theorem store_agro_payloads_body (mem : Mem) (soil weather : Value) (m' : Mem)
    (h : store_agro_body mem soil weather = .ok m') :
    store_agro_payloads mem soil weather = m' := by
  unfold store_agro_payloads
  rw [h]

theorem weatherMerge_po_tight (m : Mem) (kvs : List (String × Value)) :
    preservesOutside ["agro_precip", "agro_temp_k", "agro_weather_ts"] m
      (weatherMerge m kvs) := by
  unfold weatherMerge
  have h1 : preservesOutside ["agro_precip", "agro_temp_k", "agro_weather_ts"] m
      (match dictFind? kvs "rain" with
       | some v => memSet m "agro_precip" v
       | Option.none => m) := by
    cases dictFind? kvs "rain" with
    | none => exact preservesOutside_refl _ _
    | some v => exact preservesOutside_step _ _ v (by simp) (preservesOutside_refl _ _)
  have h2 : preservesOutside ["agro_precip", "agro_temp_k", "agro_weather_ts"] m
      (match dictFind? kvs "temperature" with
       | some v =>
           memSet (match dictFind? kvs "rain" with
                   | some v2 => memSet m "agro_precip" v2
                   | Option.none => m) "agro_temp_k" v
       | Option.none =>
           (match dictFind? kvs "rain" with
            | some v2 => memSet m "agro_precip" v2
            | Option.none => m)) := by
    cases dictFind? kvs "temperature" with
    | none => exact h1
    | some v => exact preservesOutside_step _ _ v (by simp) h1
  cases dictFind? kvs "ts" with
  | none => simpa using h2
  | some v => simpa using preservesOutside_step _ _ v (by simp) h2

theorem soilMerge_find_sm_none (m : Mem) (kvs : List (String × Value))
    (h : dictFind? kvs "soil_moisture" = Option.none) :
    memFind? (soilMerge m kvs) "soil_moisture" = memFind? m "soil_moisture" := by
  unfold soilMerge
  simp only [h]
  cases hst : dictFind? kvs "soil_temp" with
  | none => rfl
  | some raw =>
      unfold coerceStore
      cases hpf : pyFloat raw with
      | none =>
          simp only [hpf]
          exact memFind?_memSet_ne m "soil_temp_k" "soil_moisture" raw (by decide)
      | some q =>
          simp only [hpf]
          exact memFind?_memSet_ne m "soil_temp_k" "soil_moisture" (.num q) (by decide)

theorem soilMerge_find_sm_raw (m : Mem) (kvs : List (String × Value)) (v : Value)
    (hfind : dictFind? kvs "soil_moisture" = some v) (hc : pyFloat v = Option.none) :
    memFind? (soilMerge m kvs) "soil_moisture" = some v := by
  unfold soilMerge
  simp only [hfind]
  have hcs : coerceStore m "soil_moisture" v = memSet m "soil_moisture" v := by
    unfold coerceStore
    rw [hc]
  rw [hcs]
  cases hst : dictFind? kvs "soil_temp" with
  | none => exact memFind?_memSet_self m "soil_moisture" v
  | some raw =>
      unfold coerceStore
      cases hpf : pyFloat raw with
      | none =>
          simp only [hpf]
          rw [memFind?_memSet_ne _ "soil_temp_k" "soil_moisture" raw (by decide)]
          exact memFind?_memSet_self m "soil_moisture" v
      | some q =>
          simp only [hpf]
          rw [memFind?_memSet_ne _ "soil_temp_k" "soil_moisture" (.num q) (by decide)]
          exact memFind?_memSet_self m "soil_moisture" v

theorem isTruthy_dict_of_find (kvs : List (String × Value)) (v : Value)
    (h : dictFind? kvs "soil_moisture" = some v) : isTruthy (Value.dict kvs) = true := by
  cases kvs with
  | nil => simp [dictFind?] at h
  | cons p rest => rfl

theorem weather_preserves_sm (m1 : Mem) (weather : Value) (m2 : Mem)
    (h : applyPayload m1 weather weatherMerge = .ok m2) :
    memFind? m2 "soil_moisture" = memFind? m1 "soil_moisture" := by
  by_cases ht : isTruthy weather = true
  · obtain ⟨s, hs⟩ := extractFirst_ok weather
    unfold applyPayload at h
    rw [if_pos ht, hs] at h
    cases s with
    | dict kvs =>
        have h2 : m2 = weatherMerge m1 kvs := by
          have : (pure (weatherMerge m1 kvs) : Except PyErr Mem) = .ok m2 := h
          exact (Except.ok.inj this).symm
        rw [h2]
        exact (weatherMerge_po_tight m1 kvs).2 "soil_moisture" (by decide)
    | str s2 =>
        have h2 : m2 = m1 := by
          have : (pure m1 : Except PyErr Mem) = .ok m2 := h
          exact (Except.ok.inj this).symm
        rw [h2]
    | num q =>
        have h2 : m2 = m1 := by
          have : (pure m1 : Except PyErr Mem) = .ok m2 := h
          exact (Except.ok.inj this).symm
        rw [h2]
    | none =>
        have h2 : m2 = m1 := by
          have : (pure m1 : Except PyErr Mem) = .ok m2 := h
          exact (Except.ok.inj this).symm
        rw [h2]
    | list vs =>
        have h2 : m2 = m1 := by
          have : (pure m1 : Except PyErr Mem) = .ok m2 := h
          exact (Except.ok.inj this).symm
        rw [h2]
  · have hf : isTruthy weather = false := by
      revert ht
      cases isTruthy weather <;> simp
    rw [applyPayload_falsy m1 weather weatherMerge hf] at h
    rw [(Except.ok.inj h).symm]

/-- **C8** (amended).  The `_store_agro_payloads` body never raises for any
payload shape, absent payloads/fields store nothing, but a malformed
numeric soil field is stored with its raw (uncoerced) value rather than
being skipped; weather fields are copied verbatim. -/
theorem C8_merge_tolerance_amended (mem : Mem) (soil weather : Value) :
    (store_agro_body mem soil weather).isOk = true ∧
    (isTruthy soil = false → isTruthy weather = false →
      store_agro_payloads mem soil weather = mem) ∧
    (∀ kvs, soil = .dict kvs → dictFind? kvs "soil_moisture" = Option.none →
      memFind? (store_agro_payloads mem soil weather) "soil_moisture" =
        memFind? mem "soil_moisture") ∧
    (∀ kvs v, soil = .dict kvs → dictFind? kvs "soil_moisture" = some v →
      pyFloat v = Option.none →
      memFind? (store_agro_payloads mem soil weather) "soil_moisture" = some v) := by
  obtain ⟨mb, hb, hpo⟩ := store_agro_body_ok mem soil weather
  refine ⟨by rw [hb]; rfl, ?_, ?_, ?_⟩
  · intro hs hw
    have h1 : applyPayload mem soil soilMerge = .ok mem := applyPayload_falsy _ _ _ hs
    have h2 : applyPayload mem weather weatherMerge = .ok mem := applyPayload_falsy _ _ _ hw
    have hbody : store_agro_body mem soil weather = .ok mem := by
      unfold store_agro_body
      rw [h1]
      exact h2
    exact store_agro_payloads_body _ _ _ _ hbody
  · intro kvs hs hnone
    subst hs
    by_cases ht : isTruthy (Value.dict kvs) = true
    · have h1 := applyPayload_dict mem kvs soilMerge ht
      obtain ⟨m2, h2, hp2⟩ :=
        applyPayload_ok (soilMerge mem kvs) weather weatherMerge weatherMerge_po
      have hbody : store_agro_body mem (.dict kvs) weather = .ok m2 := by
        unfold store_agro_body
        rw [h1]
        exact h2
      rw [store_agro_payloads_body _ _ _ _ hbody]
      rw [weather_preserves_sm _ weather _ h2]
      exact soilMerge_find_sm_none mem kvs hnone
    · have hf : isTruthy (Value.dict kvs) = false := by
        revert ht
        cases isTruthy (Value.dict kvs) <;> simp
      have h1 := applyPayload_falsy mem (.dict kvs) soilMerge hf
      obtain ⟨m2, h2, hp2⟩ := applyPayload_ok mem weather weatherMerge weatherMerge_po
      have hbody : store_agro_body mem (.dict kvs) weather = .ok m2 := by
        unfold store_agro_body
        rw [h1]
        exact h2
      rw [store_agro_payloads_body _ _ _ _ hbody]
      exact weather_preserves_sm _ weather _ h2
  · intro kvs v hs hfind hc
    subst hs
    have ht := isTruthy_dict_of_find kvs v hfind
    have h1 := applyPayload_dict mem kvs soilMerge ht
    obtain ⟨m2, h2, hp2⟩ :=
      applyPayload_ok (soilMerge mem kvs) weather weatherMerge weatherMerge_po
    have hbody : store_agro_body mem (.dict kvs) weather = .ok m2 := by
      unfold store_agro_body
      rw [h1]
      exact h2
    rw [store_agro_payloads_body _ _ _ _ hbody]
    rw [weather_preserves_sm _ weather _ h2]
    exact soilMerge_find_sm_raw mem kvs v hfind hc

/-- Counterexample for C8 as stated: a soil payload whose `soil_moisture`
does not coerce to a number ends up stored raw in memory (the claim says
nothing is stored for it). -/
theorem C8_counterexample :
    memFind? ([] : Mem) "soil_moisture" = Option.none ∧
    memFind? (store_agro_payloads [] (.dict [("soil_moisture", Value.str "wet")]) .none)
      "soil_moisture" = some (Value.str "wet") :=
  ⟨rfl, rfl⟩

/-- Witness for C8 at concrete payloads for each amended conjunct. -/
theorem C8_witness :
    store_agro_payloads [] Value.none Value.none = [] ∧
    memFind? (store_agro_payloads [] (.dict [("soil_temp", Value.num 280)]) .none)
      "soil_moisture" = memFind? [] "soil_moisture" ∧
    memFind? (store_agro_payloads [] (.dict [("soil_moisture", Value.str "wet")]) .none)
      "soil_moisture" = some (Value.str "wet") := by
  refine ⟨?_, ?_, ?_⟩
  · exact (C8_merge_tolerance_amended [] Value.none Value.none).2.1 rfl rfl
  · exact (C8_merge_tolerance_amended [] (.dict [("soil_temp", Value.num 280)])
      Value.none).2.2.1 [("soil_temp", Value.num 280)] rfl rfl
  · exact (C8_merge_tolerance_amended [] (.dict [("soil_moisture", Value.str "wet")])
      Value.none).2.2.2 [("soil_moisture", Value.str "wet")] (Value.str "wet") rfl rfl rfl

/-- **C7.**  When the stored location is a comma-free string of length at
least 6, `provide_followup_answers` stores exactly that string under the
`polyid` key, and the turn's observable events are the polyid
interpretation and polyid-based fetch only — no coordinate parsing and no
coordinate-based enrichment. -/
theorem C7_polyid_classification (gw : Gateway) (a : AgentState)
    (answers : List (String × Value)) (loc : String)
    (hloc : memFind? (storeAnswers a.memory answers) "location" = some (.str loc))
    (hnc : strContains loc "," = false) (hlen : 6 ≤ loc.length) :
    memFind? ((provide_followup_answers gw a answers).1.memory) "polyid" =
      some (.str loc) ∧
    (provide_followup_answers gw a answers).1.events =
      a.events ++ [Event.interpret_polyid loc, Event.fetch_by_polyid loc] ∧
    ∀ e ∈ [Event.interpret_polyid loc, Event.fetch_by_polyid loc],
      e.isCoordAttempt = false := by
  have hne : loc ≠ "" := by
    intro e
    rw [e] at hlen
    exact absurd hlen (by decide)
  have htr : isTruthy (Value.str loc) = true := by
    simp [isTruthy, hne]
  have hlp : locationPhase gw (storeAnswers a.memory answers) =
      (memSet (storeAnswers a.memory answers) "polyid" (.str loc),
       [Event.interpret_polyid loc]) := by
    unfold locationPhase
    simp only [hloc]
    rw [if_pos ⟨hnc, hlen⟩]
  have hfind : memFind? (memSet (storeAnswers a.memory answers) "polyid" (.str loc))
      "polyid" = some (.str loc) :=
    memFind?_memSet_self _ "polyid" (.str loc)
  have hcont : memContains (memSet (storeAnswers a.memory answers) "polyid" (.str loc))
      "polyid" = true := by
    simp [memContains, hfind]
  have hget : memGetD (memSet (storeAnswers a.memory answers) "polyid" (.str loc))
      "polyid" .none = .str loc := by
    simp [memGetD, hfind]
  have hpp : polyidPhase gw (memSet (storeAnswers a.memory answers) "polyid" (.str loc)) =
      (store_agro_payloads (memSet (storeAnswers a.memory answers) "polyid" (.str loc))
        (get_soil_by_polyid gw (.str loc)) (get_weather_by_polyid gw (.str loc)),
       [Event.fetch_by_polyid loc]) := by
    unfold polyidPhase
    rw [if_pos hcont]
    dsimp only
    rw [hget, if_pos htr]
    rfl
  refine ⟨?_, ?_, ?_⟩
  · rw [provide_memory_eq]
    unfold postMem
    rw [hlp]
    dsimp only
    rw [hpp]
    dsimp only
    rw [(store_agro_payloads_po _ _ _).2 "polyid" (by decide)]
    exact hfind
  · rw [provide_events_eq, hlp]
    dsimp only
    rw [hpp]
    simp
  · intro e he
    rcases List.mem_cons.mp he with rfl | he2
    · rfl
    · rcases List.mem_cons.mp he2 with rfl | he3
      · rfl
      · simp at he3

/-- Witness for C7: the spec's Scenario D location answer `"abcdef123"`. -/
theorem C7_witness :
    memFind? ((provide_followup_answers gwEmpty agentInit
      [("Location (lat, lon) — comma separated (e.g., 12.9716,77.5946)",
        Value.str "abcdef123")]).1.memory) "polyid" = some (Value.str "abcdef123") :=
  (C7_polyid_classification gwEmpty agentInit
    [("Location (lat, lon) — comma separated (e.g., 12.9716,77.5946)",
      Value.str "abcdef123")] "abcdef123" (by rfl) (by decide) (by decide)).1

/-- **C1** (amended).  No public entry point raises provided every value
stored under `area_acres` and `ph` coerces to a number (`numOkB`); when
fields are unresolved at finalization the defaults `area=1`, `soil=clay`,
`ph=6.5`, `moisture=medium` are used. -/
theorem C1_no_exception_amended :
    (∀ (a : AgentState) (text : String), numOkB a.memory = true →
      ((handle_user_input a text).2).isOk = true) ∧
    (∀ (gw : Gateway) (a : AgentState) (answers : List (String × Value)),
      numOkB (storeAnswers a.memory answers) = true →
      ((provide_followup_answers gw a answers).2).isOk = true) ∧
    (∀ m : Mem, memContains m "area_acres" = false →
      memContains m "soil_type" = false → memContains m "ph" = false →
      memContains m "moisture" = false → memContains m "soil_moisture" = false →
      computeInputs m =
        .ok { area_acres := 1, soil_type := "clay", ph := 13/2, moisture := "medium" }) := by
  refine ⟨?_, ?_, ?_⟩
  · intro a text h
    rw [handle_resp_eq]
    by_cases hm : identify_missing_fields (simple_planner text) a.memory ≠ []
    · rw [if_pos hm]
      rfl
    · rw [if_neg hm]
      have hex : (execute_plan (simple_planner text) a.memory).isOk = true := by
        rw [execute_plan_isOk]
        exact computeInputs_isOk _ h
      cases he : execute_plan (simple_planner text) a.memory with
      | ok f => rfl
      | error e =>
          rw [he] at hex
          exact absurd hex Bool.false_ne_true
  · intro gw a answers h
    rw [provide_resp_eq]
    have h3 : numOkB (postMem gw a answers) = true := by
      rw [numOkB_postMem]
      exact h
    have hex : (execute_plan (simple_planner a.last_user_input)
        (postMem gw a answers)).isOk = true := by
      rw [execute_plan_isOk]
      exact computeInputs_isOk _ h3
    cases he : execute_plan (simple_planner a.last_user_input) (postMem gw a answers) with
    | ok f => rfl
    | error e =>
        rw [he] at hex
        exact absurd hex Bool.false_ne_true
  · intro m h1 h2 h3 h4 h5
    have h1f := (memContains_eq_false_iff m "area_acres").mp h1
    have h2f := (memContains_eq_false_iff m "soil_type").mp h2
    have h3f := (memContains_eq_false_iff m "ph").mp h3
    have h4f := (memContains_eq_false_iff m "moisture").mp h4
    unfold computeInputs memGetD
    simp only [h1f, h2f, h3f, h4f, h5, Option.getD_none, Bool.false_eq_true, if_false]
    rfl

/-- Counterexample for C1 as stated: answering the pH question with the
string `"acidic"` makes finalization's `float()` raise, so
`provide_followup_answers` propagates an exception to the caller. -/
theorem C1_counterexample :
    ((provide_followup_answers gwEmpty agentInit
      [("Soil pH (e.g., 6.5)", Value.str "acidic")]).2).isOk = false := by decide

/-- Witness for C1 at concrete inputs discharging each hypothesis. -/
theorem C1_witness :
    ((provide_followup_answers gwEmpty agentInit
      [("Soil pH (e.g., 6.5)", Value.num (7/2))]).2).isOk = true ∧
    ((handle_user_input agentInit "hello").2).isOk = true ∧
    computeInputs [] =
      .ok { area_acres := 1, soil_type := "clay", ph := 13/2, moisture := "medium" } := by
  refine ⟨?_, ?_, ?_⟩
  · exact C1_no_exception_amended.2.1 gwEmpty agentInit
      [("Soil pH (e.g., 6.5)", Value.num (7/2))] (by decide)
  · exact C1_no_exception_amended.1 agentInit "hello" (by decide)
  · exact C1_no_exception_amended.2.2 [] (by decide) (by decide) (by decide)
      (by decide) (by decide)

/-- **C2** (amended).  On a fresh agent every input yields a follow-up
response (never a final one), and the plan always contains a step requiring
`crop_recommendation`, which an empty memory cannot satisfy. -/
theorem C2_fresh_always_followup (text : String) :
    respIsFollowupB (handle_user_input agentInit text).2 = true ∧
    "crop_recommendation" ∈ unionRequires (simple_planner text) := by
  have hre := handle_resp_eq agentInit text
  by_cases hb : (strContains (pyLower text) "acre" || strContains (pyLower text) "area") = true
  · have hp : simple_planner text =
        [{ name := "collect_info",
           requires := ["area_acres", "soil_type", "ph", "moisture", "location"] },
         { name := "call_crop_tool",
           requires := ["soil_type", "ph", "area_acres", "moisture"] },
         { name := "build_plan", requires := ["crop_recommendation"] }] := by
      unfold simple_planner
      dsimp only
      rw [if_pos hb]
      rfl
    constructor
    · rw [hre, hp]
      decide
    · rw [hp]
      decide
  · have hb2 : (strContains (pyLower text) "acre" || strContains (pyLower text) "area") = false := by
      revert hb
      cases strContains (pyLower text) "acre" || strContains (pyLower text) "area" <;> simp
    have hp : simple_planner text =
        [{ name := "collect_info",
           requires := ["soil_type", "ph", "moisture", "location"] },
         { name := "call_crop_tool",
           requires := ["soil_type", "ph", "area_acres", "moisture"] },
         { name := "build_plan", requires := ["crop_recommendation"] }] := by
      unfold simple_planner
      dsimp only
      rw [if_neg (by rw [hb2]; exact Bool.false_ne_true)]
      rfl
    constructor
    · rw [hre, hp]
      decide
    · rw [hp]
      decide

/-- Counterexample for C2's clause that no operation of the program ever
writes the key `crop_recommendation` into memory: answering a question
whose text is `"crop recommendation"` stores exactly that key via the
fallback key derivation. -/
theorem C2_counterexample :
    memContains ((provide_followup_answers gwEmpty agentInit
      [("crop recommendation", Value.str "maize")]).1.memory)
      "crop_recommendation" = true := by decide

/-- **C3** (amended).  `provide_followup_answers` recomputes the plan from
`last_user_input` but does not re-run the missing-field resolver: it always
finalizes (returns the mapped result of `execute_plan` on the post-store
memory).  It agrees with `handle_user_input` on the same state exactly when
the resolver reports no outstanding fields. -/
theorem C3_always_finalizes_amended (gw : Gateway) (a : AgentState)
    (answers : List (String × Value)) :
    (provide_followup_answers gw a answers).2 =
      (execute_plan (simple_planner a.last_user_input) (postMem gw a answers)).map
        Resp.final ∧
    (identify_missing_fields (simple_planner a.last_user_input) (postMem gw a answers) = [] →
      (provide_followup_answers gw a answers).2 =
        (handle_user_input { a with memory := postMem gw a answers }
          a.last_user_input).2) := by
  refine ⟨provide_resp_eq gw a answers, ?_⟩
  intro hempty
  rw [provide_resp_eq gw a answers, handle_resp_eq]
  rw [if_neg (by
    show ¬(identify_missing_fields (simple_planner a.last_user_input)
      ({ a with memory := postMem gw a answers } : AgentState).memory ≠ [])
    dsimp only
    rw [hempty]
    simp)]

/-- Counterexample for C3 as stated: with no answers on a fresh agent the
resolver still reports outstanding fields, yet `provide_followup_answers`
returns a final response instead of the follow-up questions. -/
theorem C3_counterexample :
    respIsFinalB (provide_followup_answers gwEmpty agentInit []).2 = true ∧
    identify_missing_fields (simple_planner agentInit.last_user_input)
      (postMem gwEmpty agentInit []) ≠ [] := by
  constructor
  · decide
  · decide

/-- Witness for C3 on a fully-resolved memory, where both entry points
agree. -/
theorem C3_witness :
    identify_missing_fields (simple_planner "")
      (postMem gwEmpty
        { agentInit with memory :=
          [("soil_type", Value.str "loam"), ("ph", Value.num 7),
           ("moisture", Value.str "high"), ("location", Value.str "x"),
           ("area_acres", Value.num 2), ("crop_recommendation", Value.str "maize")] }
        []) = [] ∧
    (provide_followup_answers gwEmpty
      { agentInit with memory :=
        [("soil_type", Value.str "loam"), ("ph", Value.num 7),
         ("moisture", Value.str "high"), ("location", Value.str "x"),
         ("area_acres", Value.num 2), ("crop_recommendation", Value.str "maize")] }
      []).2 =
    (handle_user_input
      ⟨postMem gwEmpty
          ⟨[("soil_type", Value.str "loam"), ("ph", Value.num 7),
            ("moisture", Value.str "high"), ("location", Value.str "x"),
            ("area_acres", Value.num 2), ("crop_recommendation", Value.str "maize")],
           [], "", Option.none, []⟩ [],
        [], "", Option.none, []⟩
      "").2 := by
  constructor
  · decide
  · exact (C3_always_finalizes_amended gwEmpty
      { agentInit with memory :=
        [("soil_type", Value.str "loam"), ("ph", Value.num 7),
         ("moisture", Value.str "high"), ("location", Value.str "x"),
         ("area_acres", Value.num 2), ("crop_recommendation", Value.str "maize")] }
      []).2 (by decide)

/-- **C4** (amended).  The union of required fields over the plan's steps is
always `{area_acres, soil_type, ph, moisture, location, crop_recommendation}`
(steps 2 and 3 unconditionally require `area_acres` and
`crop_recommendation`); only the `collect_info` step's requirement of
`area_acres` is conditional on the text containing `"acre"` or `"area"`. -/
theorem C4_union_requires_amended (text : String) :
    (∀ f, f ∈ unionRequires (simple_planner text) ↔
      f ∈ (["area_acres", "soil_type", "ph", "moisture", "location",
        "crop_recommendation"] : List String)) ∧
    ("area_acres" ∈ ((simple_planner text).headD
        { name := "", requires := [] }).requires ↔
      (strContains (pyLower text) "acre" = true ∨
        strContains (pyLower text) "area" = true)) := by
  by_cases hb : (strContains (pyLower text) "acre" || strContains (pyLower text) "area") = true
  · have hp : simple_planner text =
        [{ name := "collect_info",
           requires := ["area_acres", "soil_type", "ph", "moisture", "location"] },
         { name := "call_crop_tool",
           requires := ["soil_type", "ph", "area_acres", "moisture"] },
         { name := "build_plan", requires := ["crop_recommendation"] }] := by
      unfold simple_planner
      dsimp only
      rw [if_pos hb]
      rfl
    rw [Bool.or_eq_true] at hb
    constructor
    · intro f
      rw [hp]
      simp [unionRequires]
      tauto
    · rw [hp]
      constructor
      · intro _
        exact hb
      · intro _
        decide
  · have hb2 : (strContains (pyLower text) "acre" || strContains (pyLower text) "area") = false := by
      revert hb
      cases strContains (pyLower text) "acre" || strContains (pyLower text) "area" <;> simp
    rw [Bool.or_eq_false_iff] at hb2
    have hp : simple_planner text =
        [{ name := "collect_info",
           requires := ["soil_type", "ph", "moisture", "location"] },
         { name := "call_crop_tool",
           requires := ["soil_type", "ph", "area_acres", "moisture"] },
         { name := "build_plan", requires := ["crop_recommendation"] }] := by
      unfold simple_planner
      dsimp only
      rw [if_neg (by rw [Bool.or_eq_false_iff.mpr hb2]; exact Bool.false_ne_true)]
      rfl
    constructor
    · intro f
      rw [hp]
      simp [unionRequires]
      tauto
    · rw [hp]
      constructor
      · intro hmem
        exact absurd hmem (by decide)
      · intro hor
        rcases hor with h | h
        · rw [hb2.1] at h
          exact absurd h (by simp)
        · rw [hb2.2] at h
          exact absurd h (by simp)

/-- Counterexample for C4 as stated: for the text `"hello"` neither token
occurs, yet `area_acres` is in the union of required fields (via the
`call_crop_tool` step), contradicting the claimed if-and-only-if. -/
theorem C4_counterexample :
    "area_acres" ∈ unionRequires (simple_planner "hello") ∧
    strContains (pyLower "hello") "acre" = false ∧
    strContains (pyLower "hello") "area" = false := by
  refine ⟨?_, ?_, ?_⟩ <;> decide

end AgentCore